import Mathlib

set_option linter.unreachableTactic false
set_option linter.unusedTactic false

/-!
Verification development for the StrictDataclass repository.

The development shallowly embeds the two source modules:

* `casting.py` — the coercion engine (`cast_to_bool`, `double_unpacked`,
  `single_unpacked`, `cast_to_custom_type`, `cast_to_simple_type`,
  `cast_to_multiple_types`, `cast_to_complex_type`, `cast_to_any_type`,
  `ObjectTypeNotCastableError`), and
* `__init__.py` — the `StrictDataclass` record wrapper (`__post_init__`,
  `__getitem__`, `__setitem__`, `__delitem__`, `__delattr__`,
  `type_cast_fields`, `to_dict`).

Modelling conventions:

* Python runtime values are embedded as the inductive `Value`.  The modelled
  universe covers `None`, `bool`, `int`, `str`, `list`, `tuple`, `set`,
  `dict` and (plain) dataclass instances.  `date`/`datetime` values and the
  `dateutil` parser are outside the modelled fragment, so the corresponding
  two branches of `cast_to_simple_type` do not appear; no claim touches them.
* Python type annotations are embedded as the inductive `PyTy`.  The smart
  constructors `mkUnion`/`mkOptional` reproduce the `typing` module's
  flattening and deduplication of union arguments (so
  `Optional[Optional[T]] = Optional[T]`), and `strOfTy` reproduces the
  `repr` of type objects as far as the engine inspects it (the engine only
  ever looks at `str(cast_type)[:15]`).
* Machine integers do not occur; Python integers are unbounded and are
  embedded as `Int`.
* Exceptions are embedded as `Except PyErr`.  `ObjectTypeNotCastableError`
  subclasses `TypeError`, which matters for the `except TypeError` clauses
  in `cast_to_custom_type`; `PyErr.isTypeError` captures the subclass test.
* Nested dataclass classes reachable as coercion targets are modelled as
  plain (non-strict) dataclasses registered in an environment `Env`; the
  strict record wrapper itself is modelled by the `RInst` operations below.
-/

/-- Embedded Python type annotations, as normalized `typing` objects. -/
inductive PyTy where
  | none_   : PyTy                          -- type(None)
  | bool_   : PyTy
  | int_    : PyTy
  | str_    : PyTy
  | listTy  : PyTy                          -- bare `list`
  | setTy   : PyTy                          -- bare `set`
  | dictTy  : PyTy                          -- bare `dict`
  | tupleTy : PyTy                          -- bare `tuple`
  | any_    : PyTy                          -- typing.Any
  | custom  : String → PyTy                 -- a user-defined (dataclass) class
  | listOf  : PyTy → PyTy                   -- list[T]
  | setOf   : PyTy → PyTy                   -- set[T]
  | dictOf  : PyTy → PyTy → PyTy            -- dict[K, V]
  | tupleOf : List PyTy → PyTy              -- tuple[T1, ..., Tn]
  | unionOf : List PyTy → PyTy              -- typing.Union[...] (normalized args)
  deriving Inhabited

mutual

/-- Structural equality of embedded type objects (Python `==` on types).
Matching is one constructor at a time to keep the compiled equations
small. -/
def tyBeq : PyTy → PyTy → Bool
  | .none_, u => match u with | .none_ => true | _ => false
  | .bool_, u => match u with | .bool_ => true | _ => false
  | .int_, u => match u with | .int_ => true | _ => false
  | .str_, u => match u with | .str_ => true | _ => false
  | .listTy, u => match u with | .listTy => true | _ => false
  | .setTy, u => match u with | .setTy => true | _ => false
  | .dictTy, u => match u with | .dictTy => true | _ => false
  | .tupleTy, u => match u with | .tupleTy => true | _ => false
  | .any_, u => match u with | .any_ => true | _ => false
  | .custom a, u => match u with | .custom b => a == b | _ => false
  | .listOf a, u => match u with | .listOf b => tyBeq a b | _ => false
  | .setOf a, u => match u with | .setOf b => tyBeq a b | _ => false
  | .dictOf a b, u => match u with | .dictOf c d => tyBeq a c && tyBeq b d | _ => false
  | .tupleOf as, u => match u with | .tupleOf bs => tyBeqList as bs | _ => false
  | .unionOf as, u => match u with | .unionOf bs => tyBeqList as bs | _ => false

/-- Pointwise structural equality of lists of embedded types. -/
def tyBeqList : List PyTy → List PyTy → Bool
  | [], [] => true
  | a :: as, b :: bs => tyBeq a b && tyBeqList as bs
  | _, _ => false
end

/-- Deduplication of union arguments, keeping the first occurrence, as the
`typing` module performs when a `Union[...]` subscription is evaluated. -/
def dedupTys : List PyTy → List PyTy
  | [] => []
  | t :: ts => t :: dedupTys (ts.filter (fun u => !tyBeq t u))
termination_by ts => ts.length
decreasing_by
  simp only [List.length_cons]
  exact Nat.lt_succ_of_le (List.length_filter_le _ _)

/-- Evaluation of a `typing.Union[...]` subscription: nested unions are
flattened, duplicate arguments are removed, and a single surviving argument
collapses the union to that argument itself. -/
def mkUnion (ts : List PyTy) : PyTy :=
  let flat := ts.flatMap (fun t => match t with | .unionOf xs => xs | t => [t])
  match dedupTys flat with
  | [t] => t
  | us => .unionOf us

/-- Evaluation of a `typing.Optional[T]` subscription, which the `typing`
module defines as `Union[T, None]`. -/
def mkOptional (t : PyTy) : PyTy := mkUnion [t, .none_]

mutual

/-- Python `str`/`repr` of an embedded type object, as inspected by
`cast_to_any_type` via `str(cast_type)[:15]`.  Union objects with exactly
two arguments one of which is `NoneType` print as `typing.Optional[...]`;
all other unions print as `typing.Union[...]`. -/
def strOfTy : PyTy → String
  | .none_ => "<class \x27NoneType\x27>"
  | .bool_ => "<class \x27bool\x27>"
  | .int_ => "<class \x27int\x27>"
  | .str_ => "<class \x27str\x27>"
  | .listTy => "<class \x27list\x27>"
  | .setTy => "<class \x27set\x27>"
  | .dictTy => "<class \x27dict\x27>"
  | .tupleTy => "<class \x27tuple\x27>"
  | .any_ => "typing.Any"
  | .custom c => "<class \x27" ++ c ++ "\x27>"
  | .listOf t => "list[" ++ innerTyRepr t ++ "]"
  | .setOf t => "set[" ++ innerTyRepr t ++ "]"
  | .dictOf k v => "dict[" ++ innerTyRepr k ++ ", " ++ innerTyRepr v ++ "]"
  | .tupleOf ts => "tuple[" ++ innerTyReprList ts ++ "]"
  | .unionOf ts =>
    match ts with
    | [a, .none_] => "typing.Optional[" ++ innerTyRepr a ++ "]"
    | [.none_, b] => "typing.Optional[" ++ innerTyRepr b ++ "]"
    | ts => "typing.Union[" ++ innerTyReprList ts ++ "]"

/-- Python `typing._type_repr`: inside subscription brackets a plain class
prints as its bare name rather than as `<class ...>`. -/
def innerTyRepr : PyTy → String
  | .none_ => "NoneType"
  | .bool_ => "bool"
  | .int_ => "int"
  | .str_ => "str"
  | .listTy => "list"
  | .setTy => "set"
  | .dictTy => "dict"
  | .tupleTy => "tuple"
  | .any_ => "typing.Any"
  | .custom c => c
  | t => strOfTy t

/-- Comma-separated rendering of subscription arguments. -/
def innerTyReprList : List PyTy → String
  | [] => ""
  | [t] => innerTyRepr t
  | t :: ts => innerTyRepr t ++ ", " ++ innerTyReprList ts

end

/-- Embedded Python runtime values.  Dataclass instances carry their class
name and their `__dict__` as an ordered association list. -/
inductive Value where
  | none  : Value
  | bool  : Bool → Value
  | int   : Int → Value
  | str   : String → Value
  | list  : List Value → Value
  | tuple : List Value → Value
  | set   : List Value → Value          -- insertion-ordered, deduplicated
  | dict  : List (Value × Value) → Value -- insertion-ordered, unique keys
  | inst  : String → List (String × Value) → Value
  deriving Inhabited

mutual

/-- Python `repr` of an embedded value (strings are quoted). -/
def pyRepr : Value → String
  | .none => "None"
  | .bool b => if b then "True" else "False"
  | .int n => toString n
  | .str s => "\x27" ++ s ++ "\x27"
  | .list xs => "[" ++ pyReprList xs ++ "]"
  | .tuple xs =>
    match xs with
    | [x] => "(" ++ pyRepr x ++ ",)"
    | xs => "(" ++ pyReprList xs ++ ")"
  | .set xs =>
    match xs with
    | [] => "set()"
    | xs => "\x7b" ++ pyReprList xs ++ "\x7d"
  | .dict es => "\x7b" ++ pyReprEntries es ++ "\x7d"
  | .inst c fs => c ++ "(" ++ pyReprFields fs ++ ")"

/-- Comma-separated reprs of list elements. -/
def pyReprList : List Value → String
  | [] => ""
  | [x] => pyRepr x
  | x :: xs => pyRepr x ++ ", " ++ pyReprList xs

/-- Comma-separated reprs of dict entries. -/
def pyReprEntries : List (Value × Value) → String
  | [] => ""
  | [(k, v)] => pyRepr k ++ ": " ++ pyRepr v
  | (k, v) :: es => pyRepr k ++ ": " ++ pyRepr v ++ ", " ++ pyReprEntries es

/-- Comma-separated `name=value` reprs of dataclass fields. -/
def pyReprFields : List (String × Value) → String
  | [] => ""
  | [(n, v)] => n ++ "=" ++ pyRepr v
  | (n, v) :: fs => n ++ "=" ++ pyRepr v ++ ", " ++ pyReprFields fs

end

/-- Python `str()` of an embedded value: identical to `repr` except on
strings, which pass through unquoted. -/
def pyStr : Value → String
  | .str s => s
  | v => pyRepr v

/-- Python generic truthiness (`bool(v)`). -/
def pyTruthy : Value → Bool
  | .none => false
  | .bool b => b
  | .int n => n != 0
  | .str s => s != ""
  | .list xs => !xs.isEmpty
  | .tuple xs => !xs.isEmpty
  | .set xs => !xs.isEmpty
  | .dict es => !es.isEmpty
  | .inst _ _ => true

mutual

/-- Python `==` on embedded values.  Booleans compare numerically with
integers (`True == 1`), dict comparison is key-based, set comparison is
extensional, and dataclass instances compare fieldwise when the classes
coincide; values of unrelated kinds compare unequal. -/
def pyEq : Value → Value → Bool
  | .none, .none => true
  | .bool a, .bool b => a == b
  | .bool a, .int n => (if a then (1 : Int) else 0) == n
  | .int n, .bool b => n == (if b then (1 : Int) else 0)
  | .int m, .int n => m == n
  | .str s, .str t => s == t
  | .list xs, .list ys => pyEqList xs ys
  | .tuple xs, .tuple ys => pyEqList xs ys
  | .set xs, .set ys => pyEqSub xs ys && pyEqSub ys xs
  | .dict es, .dict fs => es.length == fs.length && pyEqEntries es fs
  | .inst c fs, .inst d gs => c == d && pyEqFields fs gs
  | _, _ => false
termination_by a b => sizeOf a + sizeOf b
decreasing_by all_goals (simp_wf; try omega)

/-- Pointwise `==` on equal-length value lists. -/
def pyEqList : List Value → List Value → Bool
  | [], [] => true
  | x :: xs, y :: ys => pyEq x y && pyEqList xs ys
  | _, _ => false
termination_by xs ys => sizeOf xs + sizeOf ys
decreasing_by all_goals (simp_wf; try omega)

/-- Set inclusion up to `==`. -/
def pyEqSub : List Value → List Value → Bool
  | [], _ => true
  | x :: xs, ys => pyEqMem x ys && pyEqSub xs ys
termination_by xs ys => sizeOf xs + sizeOf ys
decreasing_by all_goals (simp_wf; try omega)

/-- Membership up to `==`. -/
def pyEqMem : Value → List Value → Bool
  | _, [] => false
  | x, y :: ys => pyEq x y || pyEqMem x ys
termination_by x ys => sizeOf x + sizeOf ys
decreasing_by all_goals (simp_wf; try omega)

/-- Dict inclusion: every entry of the first dict has an `==`-matching key
with an `==`-matching value in the second. -/
def pyEqEntries : List (Value × Value) → List (Value × Value) → Bool
  | [], _ => true
  | (k, v) :: es, fs => pyEqFind k v fs && pyEqEntries es fs
termination_by es fs => sizeOf es + sizeOf fs
decreasing_by all_goals (simp_wf; try omega)

/-- Lookup of one entry up to `==` on both key and value. -/
def pyEqFind : Value → Value → List (Value × Value) → Bool
  | _, _, [] => false
  | k, v, (k2, v2) :: fs => (pyEq k k2 && pyEq v v2) || pyEqFind k v fs
termination_by k v fs => sizeOf k + sizeOf v + sizeOf fs
decreasing_by all_goals (simp_wf; try omega)

/-- Fieldwise `==` of dataclass field lists (dataclass `__eq__` compares the
field tuples of two instances of the same class). -/
def pyEqFields : List (String × Value) → List (String × Value) → Bool
  | [], [] => true
  | (n, v) :: fs, (m, w) :: gs => n == m && pyEq v w && pyEqFields fs gs
  | _, _ => false
termination_by fs gs => sizeOf fs + sizeOf gs
decreasing_by all_goals (simp_wf; try omega)

end



mutual

/-- Check that a value contains no dataclass instance anywhere inside it. -/
def instFree : Value → Bool
  | .inst _ _ => false
  | .list xs => instFreeList xs
  | .tuple xs => instFreeList xs
  | .set xs => instFreeList xs
  | .dict es => instFreeEntries es
  | _ => true

/-- Elementwise `instFree`. -/
def instFreeList : List Value → Bool
  | [] => true
  | x :: xs => instFree x && instFreeList xs

/-- Entrywise `instFree` over keys and values. -/
def instFreeEntries : List (Value × Value) → Bool
  | [] => true
  | (k, v) :: es => instFree k && instFree v && instFreeEntries es

end

mutual

/-- Recursive part of `dataclasses.asdict`: dataclass instances become
dicts of their fields (string keys), lists/tuples/dicts are recursed into,
and every other value is deep-copied, which on the pure value universe is
the identity (sets are deep-copied, not recursed). -/
def asdictValue : Value → Value
  | .inst _ fs => .dict (asdictFields fs)
  | .list xs => .list (asdictList xs)
  | .tuple xs => .tuple (asdictList xs)
  | .dict es => .dict (asdictEntries es)
  | v => v

/-- Fields of a dataclass instance rendered as dict entries. -/
def asdictFields : List (String × Value) → List (Value × Value)
  | [] => []
  | (n, v) :: fs => (.str n, asdictValue v) :: asdictFields fs

/-- Elementwise `asdictValue`. -/
def asdictList : List Value → List Value
  | [] => []
  | x :: xs => asdictValue x :: asdictList xs

/-- Entrywise `asdictValue` over keys and values. -/
def asdictEntries : List (Value × Value) → List (Value × Value)
  | [] => []
  | (k, v) :: es => (asdictValue k, asdictValue v) :: asdictEntries es

end

/-- Python `isinstance(v, t)` against a single non-union type object.
`some b` is the boolean outcome; `none` models the `TypeError` that
`isinstance`/`issubclass` raises when the argument is `typing.Any` or a
subscripted generic.  A `bool` is an instance of `int` (bool subclasses
int).  The `unionOf` arm is unreachable from `isInstance`: the `typing`
module flattens nested unions on construction, so a union object never
appears among union arguments. -/
def isInstanceCls (v : Value) (t : PyTy) : Option Bool :=
  match t with
  | .any_ => Option.none
  | .listOf _ => Option.none
  | .setOf _ => Option.none
  | .dictOf _ _ => Option.none
  | .tupleOf _ => Option.none
  | .unionOf _ => Option.none
  | .none_ => some (match v with | .none => true | _ => false)
  | .bool_ => some (match v with | .bool _ => true | _ => false)
  | .int_ => some (match v with | .int _ => true | .bool _ => true | _ => false)
  | .str_ => some (match v with | .str _ => true | _ => false)
  | .listTy => some (match v with | .list _ => true | _ => false)
  | .setTy => some (match v with | .set _ => true | _ => false)
  | .dictTy => some (match v with | .dict _ => true | _ => false)
  | .tupleTy => some (match v with | .tuple _ => true | _ => false)
  | .custom c => some (match v with | .inst d _ => c == d | _ => false)

/-- Member scan of `_UnionGenericAlias.__subclasscheck__` (Python ≥ 3.10):
`issubclass(type(v), arg)` is tested for each union argument left to
right, returning `True` at the first match; the loop falls off the end as
`False`; reaching a subscripted-generic argument raises `TypeError`. -/
def isInstanceUnion (v : Value) : List PyTy → Option Bool
  | [] => some false
  | t :: ts =>
    match isInstanceCls v t with
    | some true => some true
    | some false => isInstanceUnion v ts
    | Option.none => Option.none

/-- Python `isinstance(v, t)`.  On Python ≥ 3.10 — which this module
requires, via `from types import UnionType` — `isinstance` accepts union
objects, testing their members left to right and returning a boolean;
`typing.Any` and subscripted generics raise `TypeError`, modelled as
`none`. -/
def isInstance (v : Value) (t : PyTy) : Option Bool :=
  match t with
  | .unionOf ts => isInstanceUnion v ts
  | t => isInstanceCls v t

/-- Python `get_origin(t) != None`: true exactly for subscripted generics
and union objects. -/
def hasOrigin : PyTy → Bool
  | .listOf _ => true
  | .setOf _ => true
  | .dictOf _ _ => true
  | .tupleOf _ => true
  | .unionOf _ => true
  | _ => false

/-- Python iteration over a value: lists/tuples/sets yield their elements,
strings yield their characters as one-character strings, dicts yield their
keys; everything else is not iterable. -/
def iterElems : Value → Option (List Value)
  | .list xs => some xs
  | .tuple xs => some xs
  | .set xs => some xs
  | .str s => some (s.data.map (fun c => .str (String.mk [c])))
  | .dict es => some (es.map (fun e => e.1))
  | _ => Option.none

/-- Embedded Python exceptions, as far as the two modules distinguish them. -/
inductive PyErr where
  | otnce : Value → String → PyErr  -- ObjectTypeNotCastableError(cast_value, cast_type)
  | typeError : PyErr
  | valueError : PyErr
  | attributeError : PyErr
  | indexError : PyErr
  | notImplementedError : PyErr

/-- Test used by `except TypeError` clauses: `ObjectTypeNotCastableError`
subclasses `TypeError`, so it is caught as well. -/
def PyErr.isTypeError : PyErr → Bool
  | .otnce _ _ => true
  | .typeError => true
  | _ => false

/-- Test used by `except ObjectTypeNotCastableError` clauses: only the
dedicated coercion error is caught. -/
def PyErr.isOTNCE : PyErr → Bool
  | .otnce _ _ => true
  | _ => false

/-- Test used by `except ValueError` clauses. -/
def PyErr.isValueError : PyErr → Bool
  | .valueError => true
  | _ => false

/-- Python `int(s)` string parsing: optional surrounding whitespace, an
optional sign, then one or more decimal digits (digit-group underscores are
outside the modelled fragment). -/
def pyParseInt (s : String) : Option Int :=
  let t := s.trim
  let neg := t.startsWith "-"
  let core := if neg || t.startsWith "+" then t.drop 1 else t
  if core.length > 0 && core.toList.all Char.isDigit then
    some (if neg then -(Int.ofNat (core.toNat?.getD 0)) else Int.ofNat (core.toNat?.getD 0))
  else Option.none

/-- Declared field of a dataclass: name and type annotation. -/
structure RField where
  name : String
  ty : PyTy
  deriving Inhabited

/-- Declared dataclass: class name and fields in declaration order. -/
structure RClass where
  name : String
  fieldsD : List RField
  deriving Inhabited

/-- Registry of user-defined dataclass classes that can appear as coercion
targets.  They are modelled as plain (non-strict) dataclasses: construction
assigns the given arguments without further coercion. -/
abbrev Env := List RClass

/-- Lookup of a registered class by name. -/
def envFind (env : Env) (c : String) : Option RClass :=
  env.find? (fun cl => cl.name == c)

/-- Deduplication of set elements by Python `==`, keeping the first
occurrence (set iteration order is unobservable in Python; the model keeps
insertion order). -/
def dedupVals : List Value → List Value
  | [] => []
  | v :: vs => v :: dedupVals (vs.filter (fun w => !pyEq v w))
termination_by vs => vs.length
decreasing_by
  simp only [List.length_cons]
  exact Nat.lt_succ_of_le (List.length_filter_le _ _)

/-- Dict update at a key: an `==`-equal key keeps its position and gets the
new value, otherwise the entry is appended. -/
def dictInsert (es : List (Value × Value)) (k v : Value) : List (Value × Value) :=
  match es with
  | [] => [(k, v)]
  | (k2, v2) :: rest =>
    if pyEq k2 k then (k2, v) :: rest else (k2, v2) :: dictInsert rest k v

/-- Conversion of an iterable of key-value pairs to dict entries, as
`dict(iterable)` performs: each element must itself be an iterable of
exactly two items. -/
def pairsOf : List Value → Except PyErr (List (Value × Value))
  | [] => .ok []
  | e :: es =>
    match iterElems e with
    | some [a, b] => (pairsOf es).map (fun rest => (a, b) :: rest)
    | some _ => .error .valueError
    | Option.none => .error .typeError

/-- Keyword-argument view of dict entries: every key must be a string
(otherwise `f(**d)` raises `TypeError: keywords must be strings`). -/
def kwOfDict : List (Value × Value) → Option (List (String × Value))
  | [] => some []
  | (k, v) :: es =>
    match k with
    | .str s => (kwOfDict es).map (fun rest => (s, v) :: rest)
    | _ => Option.none

/-- Argument shape of a Python call. -/
inductive CallArgs where
  | pos : List Value → CallArgs
  | kw : List (String × Value) → CallArgs

/-- Lookup in a string-keyed association list (first match wins, as in a
Python dict, whose keys are unique). -/
def lookupStr : List (String × Value) → String → Option Value
  | [], _ => Option.none
  | e :: es, n => if e.1 == n then some e.2 else lookupStr es n

/-- Call semantics of `int(...)` on the modelled universe.  `f(**{})` is
`f()`; `int` accepts no keyword arguments; multi-argument forms (an
explicit base) do not arise on the modelled value universe and are mapped
to `TypeError`. -/
def callInt : CallArgs → Except PyErr Value
  | .pos [] => .ok (.int 0)
  | .pos [.bool b] => .ok (.int (if b then 1 else 0))
  | .pos [.int n] => .ok (.int n)
  | .pos [.str s] =>
    (match pyParseInt s with
     | some n => .ok (.int n)
     | Option.none => .error .valueError)
  | .pos [_] => .error .typeError
  | .pos _ => .error .typeError
  | .kw [] => .ok (.int 0)
  | .kw _ => .error .typeError

/-- Call semantics of `str(...)`: zero arguments give the empty string, a
single argument is rendered with `str()`, and the only accepted keyword is
`object`. -/
def callStr : CallArgs → Except PyErr Value
  | .pos [] => .ok (.str "")
  | .pos [v] => .ok (.str (pyStr v))
  | .pos _ => .error .typeError
  | .kw [] => .ok (.str "")
  | .kw [(n, v)] => if n == "object" then .ok (.str (pyStr v)) else .error .typeError
  | .kw _ => .error .typeError

/-- Call semantics of `bool(...)`: generic truthiness; positional only. -/
def callBool : CallArgs → Except PyErr Value
  | .pos [] => .ok (.bool false)
  | .pos [v] => .ok (.bool (pyTruthy v))
  | .pos _ => .error .typeError
  | .kw [] => .ok (.bool false)
  | .kw _ => .error .typeError

/-- Call semantics of `list(...)`: a single iterable argument. -/
def callList : CallArgs → Except PyErr Value
  | .pos [] => .ok (.list [])
  | .pos [v] =>
    (match iterElems v with
     | some es => .ok (.list es)
     | Option.none => .error .typeError)
  | .pos _ => .error .typeError
  | .kw [] => .ok (.list [])
  | .kw _ => .error .typeError

/-- Call semantics of `set(...)`: a single iterable argument, elements
deduplicated by `==`. -/
def callSet : CallArgs → Except PyErr Value
  | .pos [] => .ok (.set [])
  | .pos [v] =>
    (match iterElems v with
     | some es => .ok (.set (dedupVals es))
     | Option.none => .error .typeError)
  | .pos _ => .error .typeError
  | .kw [] => .ok (.set [])
  | .kw _ => .error .typeError

/-- Call semantics of `tuple(...)`: a single iterable argument. -/
def callTuple : CallArgs → Except PyErr Value
  | .pos [] => .ok (.tuple [])
  | .pos [v] =>
    (match iterElems v with
     | some es => .ok (.tuple es)
     | Option.none => .error .typeError)
  | .pos _ => .error .typeError
  | .kw [] => .ok (.tuple [])
  | .kw _ => .error .typeError

/-- Call semantics of `dict(...)`: a mapping copies, another iterable must
yield key-value pairs (later pairs overriding earlier ones), and keyword
arguments become string-keyed entries. -/
def callDict : CallArgs → Except PyErr Value
  | .pos [] => .ok (.dict [])
  | .pos [.dict es] => .ok (.dict es)
  | .pos [v] =>
    (match iterElems v with
     | some es => (pairsOf es).map
         (fun ps => Value.dict (ps.foldl (fun acc p => dictInsert acc p.1 p.2) []))
     | Option.none => .error .typeError)
  | .pos _ => .error .typeError
  | .kw m => .ok (.dict (m.map (fun e => (Value.str e.1, e.2))))

/-- Call semantics of `type(None)`: no arguments accepted. -/
def callNone : CallArgs → Except PyErr Value
  | .pos [] => .ok .none
  | .kw [] => .ok .none
  | _ => .error .typeError

/-- Call semantics of a registered dataclass: exactly one positional
argument per field, or keyword arguments naming every field exactly;
construction assigns the arguments without further coercion (the nested
classes are modelled as plain dataclasses). -/
def callCustom (env : Env) (c : String) (args : CallArgs) : Except PyErr Value :=
  match envFind env c with
  | Option.none => .error .typeError  -- classes outside the registry are outside the modelled fragment
  | some cl =>
    match args with
    | .pos vs =>
      if vs.length == cl.fieldsD.length then
        .ok (.inst c (List.zip (cl.fieldsD.map RField.name) vs))
      else .error .typeError
    | .kw m =>
      if m.length == cl.fieldsD.length
          && cl.fieldsD.all (fun f => (lookupStr m f.name).isSome) then
        .ok (.inst c (cl.fieldsD.map
          (fun f => (f.name, (lookupStr m f.name).getD Value.none))))
      else .error .typeError

/-- Call semantics of the type objects reachable as coercion targets.
`typing.Any` and the non-class `typing` forms cannot be instantiated. -/
def callType (env : Env) (t : PyTy) (args : CallArgs) : Except PyErr Value :=
  match t with
  | .int_ => callInt args
  | .str_ => callStr args
  | .bool_ => callBool args
  | .listTy => callList args
  | .setTy => callSet args
  | .tupleTy => callTuple args
  | .dictTy => callDict args
  | .none_ => callNone args
  | .custom c => callCustom env c args
  | _ => .error .typeError

/-- Function `double_unpacked`: `callable_type(**cast_value)`.  The argument
after `**` must be a mapping with string keys. -/
def doubleUnpacked (env : Env) (v : Value) (t : PyTy) : Except PyErr Value :=
  match v with
  | .dict es =>
    (match kwOfDict es with
     | some m => callType env t (.kw m)
     | Option.none => .error .typeError)
  | _ => .error .typeError

/-- Function `single_unpacked`: `callable_type(*cast_value)`.  The argument
after `*` must be an iterable. -/
def singleUnpacked (env : Env) (v : Value) (t : PyTy) : Except PyErr Value :=
  match iterElems v with
  | some es => callType env t (.pos es)
  | Option.none => .error .typeError

/-- Function `cast_to_custom_type`: try `double_unpacked`, then
`single_unpacked`, then a plain single-argument call, catching `TypeError`
(which includes `ObjectTypeNotCastableError`) at each stage.  A `ValueError`
from the first attempt is converted to the coercion error; a `ValueError`
raised inside the `except TypeError` handler (e.g. by `int("abc")`)
propagates uncaught, since handlers of one `try` do not catch exceptions
raised in its other handlers. -/
def castToCustomType (env : Env) (v : Value) (t : PyTy) : Except PyErr Value :=
  match doubleUnpacked env v t with
  | .ok r => .ok r
  | .error e =>
    if e.isTypeError then
      match singleUnpacked env v t with
      | .ok r => .ok r
      | .error e2 =>
        if e2.isTypeError then
          match callType env t (.pos [v]) with
          | .ok r => .ok r
          | .error e3 =>
            if e3.isTypeError then .error (.otnce v (strOfTy t)) else .error e3
        else .error e2
    else if e.isValueError then .error (.otnce v (strOfTy t))
    else .error e

/-- Constant `TRUE_BOOLS` from `cast_to_bool`. -/
def TRUE_BOOLS : List String := ["1", "TRUE", "T"]

/-- ASCII uppercasing of a character (`str.upper`; the strings compared
against `TRUE_BOOLS` are pure ASCII, so the ASCII fragment suffices). -/
def asciiUpper (c : Char) : Char :=
  if c.isLower then Char.ofNat (c.toNat - 32) else c

/-- ASCII `str.upper()` on the modelled fragment. -/
def pyUpper (s : String) : String := ⟨s.data.map asciiUpper⟩

/-- Function `cast_to_bool`: integer inputs (including bools, which are
`isinstance` of `int`) are stringified first; string inputs are matched
case-insensitively against `TRUE_BOOLS`; anything else falls back to
generic truthiness `bool()`. -/
def castToBool (v : Value) : Bool :=
  let v2 := if isInstance v .int_ == some true then Value.str (pyStr v) else v
  match v2 with
  | .str s => TRUE_BOOLS.contains (pyUpper s)
  | w => pyTruthy w

/-- Whether a type object is `isinstance(..., Callable)`: every class is
callable; `typing` special forms (subscripted generics, unions, `Any`) are
not reached here with a callable check succeeding. -/
def callableTy : PyTy → Bool
  | .none_ => true
  | .bool_ => true
  | .int_ => true
  | .str_ => true
  | .listTy => true
  | .setTy => true
  | .dictTy => true
  | .tupleTy => true
  | .custom _ => true
  | _ => false

/-- Function `cast_to_simple_type`: pass through on `Any` or on a
satisfied `isinstance` check, interpret booleans via `cast_to_bool`, fail
on non-callable targets, and otherwise attempt constructor casting.  The
`date`/`datetime` branches concern types outside the modelled universe and
have no corresponding branch here.  An `isinstance` `TypeError` (second
argument not a class) would propagate, which the engine never triggers on
this function. -/
def castToSimpleType (env : Env) (v : Value) (t : PyTy) : Except PyErr Value :=
  match t with
  | .any_ => .ok v
  | t =>
    match isInstance v t with
    | some true => .ok v
    | some false =>
      (match t with
       | .bool_ => .ok (.bool (castToBool v))
       | t =>
         if callableTy t then castToCustomType env v t
         else .error (.otnce v (strOfTy t)))
    | Option.none => .error .typeError

/-- Argument shape of `cast_to_any_type`: a single type object or a tuple
of candidate types. -/
inductive CastArg where
  | single : PyTy → CastArg
  | tup : List PyTy → CastArg

/-- Comma-separated concatenation. -/
def joinComma : List String → String
  | [] => ""
  | [s] => s
  | s :: ss => s ++ ", " ++ joinComma ss

/-- Python `str` of the `cast_type` argument: a type object prints via
`strOfTy`; a tuple of types prints as a tuple repr, which never starts with
`typing.Optional`. -/
def strOfArg : CastArg → String
  | .single t => strOfTy t
  | .tup [t] => "(" ++ strOfTy t ++ ",)"
  | .tup ts => "(" ++ joinComma (ts.map strOfTy) ++ ")"

mutual

/-- Termination weight of a type object. -/
def wTy : PyTy → Nat
  | .listOf t => wTy t + 8
  | .setOf t => wTy t + 8
  | .dictOf k v => wTy k + wTy v + 11
  | .tupleOf ts => wListTy ts + 4
  | .unionOf ts => wListTy ts + 4
  | _ => 1

/-- Termination weight of a list of type objects. -/
def wListTy : List PyTy → Nat
  | [] => 1
  | t :: ts => wTy t + wListTy ts + 3

end

/-- Termination weight of a `cast_to_any_type` argument. -/
def wArg : CastArg → Nat
  | .single t => wTy t + 2
  | .tup ts => wListTy ts + 2

/-- Lower bound used by the termination proofs. -/
theorem wListTy_pos (ts : List PyTy) : 1 ≤ wListTy ts := by
  cases ts <;> simp [wListTy]

/-- Lower bound used by the termination proofs. -/
theorem wTy_pos (t : PyTy) : 1 ≤ wTy t := by
  cases t <;> simp [wTy]

mutual

/-- Function `cast_to_any_type`.  A `None` input is intercepted first and
succeeds only when `str(cast_type)[:15]` is the literal
`typing.Optional`; otherwise the candidate loop runs.  Every branch of the
Python loop body returns or raises, so only the first candidate is ever
examined (`castFirst`); an empty candidate tuple falls through to the
trailing raise. -/
def castToAnyType (env : Env) (v : Value) (arg : CastArg) : Except PyErr Value :=
  match v with
  | .none =>
    if (strOfArg arg).take 15 == "typing.Optional" then .ok .none
    else .error (.otnce .none (strOfArg arg))
  | v =>
    match arg with
    | .single t => castFirst env v t
    | .tup [] => .error (.otnce v (strOfArg (.tup [])))
    | .tup (t :: _) => castFirst env v t
termination_by (wArg arg, 0)
decreasing_by all_goals (simp_wf; first
  | (apply Prod.Lex.left; (try simp only [wArg, wTy, wListTy, List.length_cons]); omega)
  | (apply Prod.Lex.right; (try simp only [wArg, wTy, wListTy, List.length_cons]); omega)
  | ((try simp only [wArg, wTy, wListTy, List.length_cons]); omega))

/-- Body of the candidate loop in `cast_to_any_type`: the `isinstance`
short-circuit (its `TypeError` is swallowed by `except TypeError: pass`),
then dispatch on `get_origin` to the complex or the simple caster. -/
def castFirst (env : Env) (v : Value) (t : PyTy) : Except PyErr Value :=
  match isInstance v t with
  | some true => .ok v
  | _ =>
    if hasOrigin t then castToComplexType env v t
    else castToSimpleType env v t
termination_by (wTy t + 1, 0)
decreasing_by all_goals (simp_wf; first
  | (apply Prod.Lex.left; (try simp only [wArg, wTy, wListTy, List.length_cons]); omega)
  | (apply Prod.Lex.right; (try simp only [wArg, wTy, wListTy, List.length_cons]); omega)
  | ((try simp only [wArg, wTy, wListTy, List.length_cons]); omega))

/-- Function `cast_to_complex_type`: plain classes go to
`cast_to_simple_type`; unions iterate members; subscripted `list`, `set`,
`tuple` and `dict` recurse elementwise, passing the whole `get_args` tuple
down to `cast_to_any_type`.  Iterating a non-iterable raises `TypeError`;
calling `.items()` on a non-dict raises `AttributeError`. -/
def castToComplexType (env : Env) (v : Value) (t : PyTy) : Except PyErr Value :=
  match t with
  | .unionOf ts => castToMultipleTypes env v ts
  | .listOf te =>
    (match iterElems v with
     | some es => (castElems env [te] es).map Value.list
     | Option.none => .error .typeError)
  | .setOf te =>
    (match iterElems v with
     | some es => (castElems env [te] es).map (fun rs => Value.set (dedupVals rs))
     | Option.none => .error .typeError)
  | .tupleOf ts =>
    (match iterElems v with
     | some es => (castElems env ts es).map Value.tuple
     | Option.none => .error .typeError)
  | .dictOf tk tv =>
    (match v with
     | .dict es => (castDictVals env [tk, tv] es).map Value.dict
     | _ => .error .attributeError)
  | t => castToSimpleType env v t
termination_by (wTy t, 0)
decreasing_by all_goals (simp_wf; first
  | (apply Prod.Lex.left; (try simp only [wArg, wTy, wListTy, List.length_cons]); omega)
  | (apply Prod.Lex.right; (try simp only [wArg, wTy, wListTy, List.length_cons]); omega)
  | ((try simp only [wArg, wTy, wListTy, List.length_cons]); omega))

/-- Function `cast_to_multiple_types`: try each union member with
`cast_to_any_type`, catching only `ObjectTypeNotCastableError`.  The Python
function has no trailing `raise`, so an exhausted loop implicitly returns
Python `None`. -/
def castToMultipleTypes (env : Env) (v : Value) : List PyTy → Except PyErr Value
  | [] => .ok .none
  | t :: rest =>
    match castToAnyType env v (.single t) with
    | .ok r => .ok r
    | .error e => if e.isOTNCE then castToMultipleTypes env v rest else .error e
termination_by ts => (wListTy ts, 0)
decreasing_by all_goals (simp_wf; first
  | (apply Prod.Lex.left; (try simp only [wArg, wTy, wListTy, List.length_cons]); omega)
  | (apply Prod.Lex.right; (try simp only [wArg, wTy, wListTy, List.length_cons]); omega)
  | ((try simp only [wArg, wTy, wListTy, List.length_cons]); omega))

/-- Elementwise casting used by the list/set/tuple comprehensions in
`cast_to_complex_type`; the first failing element propagates its error. -/
def castElems (env : Env) (args : List PyTy) : List Value → Except PyErr (List Value)
  | [] => .ok []
  | e :: es =>
    match castToAnyType env e (.tup args) with
    | .ok r => (castElems env args es).map (fun rs => r :: rs)
    | .error err => .error err
termination_by es => (wListTy args + 3, es.length)
decreasing_by all_goals (simp_wf; first
  | (apply Prod.Lex.left; (try simp only [wArg, wTy, wListTy, List.length_cons]); omega)
  | (apply Prod.Lex.right; (try simp only [wArg, wTy, wListTy, List.length_cons]); omega)
  | ((try simp only [wArg, wTy, wListTy, List.length_cons]); omega))

/-- Valuewise casting used by the dict comprehension in
`cast_to_complex_type`: keys pass through unchanged, each value is cast
against the whole `get_args` tuple. -/
def castDictVals (env : Env) (args : List PyTy) : List (Value × Value) → Except PyErr (List (Value × Value))
  | [] => .ok []
  | (k, w) :: es =>
    match castToAnyType env w (.tup args) with
    | .ok r => (castDictVals env args es).map (fun rs => (k, r) :: rs)
    | .error err => .error err
termination_by es => (wListTy args + 3, es.length)
decreasing_by all_goals (simp_wf; first
  | (apply Prod.Lex.left; (try simp only [wArg, wTy, wListTy, List.length_cons]); omega)
  | (apply Prod.Lex.right; (try simp only [wArg, wTy, wListTy, List.length_cons]); omega)
  | ((try simp only [wArg, wTy, wListTy, List.length_cons]); omega))

end

/-- Python list indexing with an integer index: non-negative indices count
from the front, negative indices from the back, anything else is an
`IndexError`. -/
def pyIndex {α : Type} (xs : List α) (i : Int) : Option α :=
  if 0 ≤ i then xs[i.toNat]?
  else if -(xs.length : Int) ≤ i then xs[(xs.length + i).toNat]?
  else Option.none

/-- Instance of a strict record class: the class declaration together with
the instance `__dict__` (an ordered association list, assigned in field
order by `__init__`). -/
structure RInst where
  cls : RClass
  attrs : List (String × Value)

/-- Integer value of an index key; `bool` keys count as their integer
value, since `bool` subclasses `int`.  Callers guard with
`isinstance(key, int)`, so other shapes are unreachable. -/
def keyInt : Value → Int
  | .int n => n
  | .bool b => if b then 1 else 0
  | _ => 0

/-- Attribute read (`__getattribute__`): lookup in the instance dict.
Class-level attributes (methods) are outside the modelled fragment. -/
def getAttr (r : RInst) (n : String) : Except PyErr Value :=
  match lookupStr r.attrs n with
  | some v => .ok v
  | Option.none => .error .attributeError

/-- Update-or-append in a string-keyed association list, keeping the
position of an existing key (Python dict assignment). -/
def setAttrVal (attrs : List (String × Value)) (n : String) (v : Value) : List (String × Value) :=
  match attrs with
  | [] => [(n, v)]
  | (m, w) :: rest => if m == n then (m, v) :: rest else (m, w) :: setAttrVal rest n v

/-- Attribute write (`__setattr__`, not overridden): assign into the
instance dict, creating the attribute when absent. -/
def RInst.setAttr (r : RInst) (n : String) (v : Value) : RInst :=
  ⟨r.cls, setAttrVal r.attrs n v⟩

/-- Method `__getitem__`: an `isinstance(item, int)` key (which includes
booleans) resolves as an ordinal against `fields(self)`, an
`isinstance(item, str)` key as an attribute name, and any other key type
raises `NotImplementedError`. -/
def getItem (r : RInst) (key : Value) : Except PyErr Value :=
  if isInstance key .int_ == some true then
    match pyIndex r.cls.fieldsD (keyInt key) with
    | some fd => getAttr r fd.name
    | Option.none => .error .indexError
  else if isInstance key .str_ == some true then
    match key with
    | .str s => getAttr r s
    | _ => .error .typeError
  else .error .notImplementedError

/-- Method `__setitem__`: same key resolution as `__getitem__`; the write
itself is a plain attribute assignment with no re-coercion. -/
def setItem (r : RInst) (key : Value) (v : Value) : Except PyErr RInst :=
  if isInstance key .int_ == some true then
    match pyIndex r.cls.fieldsD (keyInt key) with
    | some fd => .ok (r.setAttr fd.name v)
    | Option.none => .error .indexError
  else if isInstance key .str_ == some true then
    match key with
    | .str s => .ok (r.setAttr s v)
    | _ => .error .typeError
  else .error .notImplementedError

/-- Method `__delitem__`: unconditionally raises `NotImplementedError`
before touching any state. -/
def delItem (_r : RInst) (_args : List Value) : Except PyErr RInst :=
  .error .notImplementedError

/-- Method `__delattr__`: unconditionally raises `NotImplementedError`
before touching any state. -/
def delAttr (_r : RInst) (_args : List Value) : Except PyErr RInst :=
  .error .notImplementedError

/-- Property `all_fields`: the declared field names in order. -/
def allFields (cls : RClass) : List String :=
  cls.fieldsD.map RField.name

/-- Property `fields_dict`: field names with their declared types, in
declaration order. -/
def fieldsDict (cls : RClass) : List (String × PyTy) :=
  cls.fieldsD.map (fun fd => (fd.name, fd.ty))

/-- Loop body of `type_cast_fields`: for each declared field in order,
`self[key] = cast(self[key], field_type)` via string indexing. -/
def typeCastFieldsGo (env : Env) (r : RInst) : List RField → Except PyErr RInst
  | [] => .ok r
  | fd :: rest =>
    match getItem r (.str fd.name) with
    | .error e => .error e
    | .ok v =>
      match castToAnyType env v (.single fd.ty) with
      | .error e => .error e
      | .ok v2 =>
        match setItem r (.str fd.name) v2 with
        | .error e => .error e
        | .ok r2 => typeCastFieldsGo env r2 rest

/-- Method `type_cast_fields`, invoked by `__post_init__`. -/
def typeCastFields (env : Env) (r : RInst) : Except PyErr RInst :=
  typeCastFieldsGo env r r.cls.fieldsD

/-- Construction of a strict record with positional arguments: the
generated `__init__` assigns each field in declaration order, then
`__post_init__` runs `type_cast_fields`.  A failed coercion aborts
construction with the coercion error. -/
def constructRecord (env : Env) (cls : RClass) (vs : List Value) : Except PyErr RInst :=
  if vs.length == cls.fieldsD.length then
    typeCastFields env ⟨cls, List.zip (cls.fieldsD.map RField.name) vs⟩
  else .error .typeError

/-- Construction of a strict record with keyword arguments (fields
supplied by name): every field must be named exactly once. -/
def constructKw (env : Env) (cls : RClass) (m : List (String × Value)) : Except PyErr RInst :=
  if m.length == cls.fieldsD.length
      && cls.fieldsD.all (fun f => (lookupStr m f.name).isSome) then
    typeCastFields env ⟨cls, cls.fieldsD.map (fun f => (f.name, (lookupStr m f.name).getD Value.none))⟩
  else .error .typeError

/-- Loop body of `to_dict` (`dataclasses.asdict`): read each declared
field and recursively unwrap nested dataclass instances. -/
def toDictGo (r : RInst) : List RField → Except PyErr (List (String × Value))
  | [] => .ok []
  | fd :: rest =>
    match getAttr r fd.name with
    | .error e => .error e
    | .ok v => (toDictGo r rest).map (fun es => (fd.name, asdictValue v) :: es)

/-- Method `to_dict`: the `dataclasses.asdict` snapshot of the instance,
string field names mapping to recursively unwrapped values. -/
def toDict (r : RInst) : Except PyErr (List (String × Value)) :=
  toDictGo r r.cls.fieldsD

/-- Field tuple of an instance, as dataclass `__eq__` compares it. -/
def fieldTuple (r : RInst) : List Value :=
  r.cls.fieldsD.map (fun fd => (lookupStr r.attrs fd.name).getD Value.none)

/-- Dataclass `__eq__` on record instances: same class and `==`-equal
field tuples. -/
def pyEqRec (a b : RInst) : Bool :=
  a.cls.name == b.cls.name && pyEqList (fieldTuple a) (fieldTuple b)

/-- Helper: a non-`None` value that satisfies the `isinstance` check against
a single declared type passes through `cast_to_any_type` unchanged. -/
theorem castAny_of_isInstance (env : Env) (v : Value) (t : PyTy)
    (hv : v ≠ Value.none) (hi : isInstance v t = some true) :
    castToAnyType env v (.single t) = .ok v := by
  cases v <;> simp_all [castToAnyType.eq_def, castFirst.eq_def]

/-- C9: for every record instance, every deletion attempt — `__delitem__`
or `__delattr__`, whatever the arguments — fails with the
unsupported-operation error (`NotImplementedError`); both methods raise
before touching any state, so the instance is unchanged (no success case
exists). -/
theorem c9_delete_always_fails :
    ∀ (r : RInst) (args : List Value),
      delItem r args = .error .notImplementedError
      ∧ delAttr r args = .error .notImplementedError :=
  fun _ _ => ⟨rfl, rfl⟩

/-- C7 counterexample: coercing the `None` sentinel against `typing.Any`
does not succeed — the sentinel branch of `cast_to_any_type` fires first
and `str(Any)` does not start with `typing.Optional`, so the coercion
error is raised, refuting the claim that the unconstrained type accepts
every input including the sentinel. -/
theorem c7_any_passthrough_counterexample :
    castToAnyType [] Value.none (.single .any_)
      = .error (.otnce Value.none "typing.Any") := by
  have h : (("typing.Any").take 15 == "typing.Optional") = false := by decide
  simp [castToAnyType.eq_def, strOfArg, strOfTy.eq_def, h]

/-- C7 amended: every value other than the `None` sentinel is accepted
unchanged by the unconstrained `typing.Any` declared type; the sentinel
itself is rejected because `Any` is not an optional declaration. -/
theorem c7_any_passthrough_amended (env : Env) (v : Value) (hv : v ≠ Value.none) :
    castToAnyType env v (.single .any_) = .ok v := by
  cases v <;> simp_all [castToAnyType.eq_def, castFirst.eq_def, isInstance, isInstanceCls, isInstanceUnion, hasOrigin,
    castToSimpleType]

/-- C7 witness: the amended theorem at the concrete input `3`. -/
theorem c7_any_passthrough_witness :
    castToAnyType [] (.int 3) (.single .any_) = .ok (.int 3) :=
  c7_any_passthrough_amended [] (.int 3) (by simp)

/-- C6 counterexample: the sentinel `None` satisfies runtime membership in
`NoneType`, yet coercing it against `NoneType` raises the coercion error
instead of returning it unchanged — the sentinel branch of
`cast_to_any_type` runs before the membership short-circuit. -/
theorem c6_idempotence_counterexample :
    isInstance Value.none .none_ = some true
    ∧ castToAnyType [] Value.none (.single .none_)
        = .error (.otnce Value.none "<class \x27NoneType\x27>") := by
  refine ⟨rfl, ?_⟩
  have h : (("<class \x27NoneType\x27>").take 15 == "typing.Optional") = false := by decide
  simp [castToAnyType.eq_def, strOfArg, strOfTy.eq_def, h]

/-- C6 amended: for every value other than the `None` sentinel that
satisfies the runtime `isinstance` check against the declared type — a
class or a union object, whose members `isinstance` tests left to right on
Python ≥ 3.10, as opposed to a tuple of candidates — coercion returns the
value unchanged, and re-applying coercion to the result is a no-op. -/
theorem c6_idempotence_amended (env : Env) (v : Value) (t : PyTy)
    (hv : v ≠ Value.none) (hi : isInstance v t = some true) :
    castToAnyType env v (.single t) = .ok v
    ∧ (castToAnyType env v (.single t)).bind (fun w => castToAnyType env w (.single t))
        = castToAnyType env v (.single t) := by
  have h := castAny_of_isInstance env v t hv hi
  exact ⟨h, by rw [h]; simpa using h⟩

/-- C6 witness: the amended theorem at the concrete input `5` against the
union declared type `Union[str, int]` — the membership short-circuit fires
on the union's second member and returns the integer unchanged. -/
theorem c6_idempotence_witness :
    castToAnyType [] (.int 5) (.single (.unionOf [.str_, .int_])) = .ok (.int 5)
    ∧ (castToAnyType [] (.int 5) (.single (.unionOf [.str_, .int_]))).bind
        (fun w => castToAnyType [] w (.single (.unionOf [.str_, .int_])))
        = castToAnyType [] (.int 5) (.single (.unionOf [.str_, .int_])) :=
  c6_idempotence_amended [] (.int 5) (.unionOf [.str_, .int_]) (by simp) rfl

/-- C1 counterexample: with candidate tuple `(list, int)` and input `5`,
the first candidate `list` fails and the whole coercion raises, even
though the second candidate `int` alone would succeed — refuting the
claimed short-circuit union semantics for candidate tuples. -/
theorem c1_first_candidate_counterexample :
    castToAnyType [] (.int 5) (.tup [.listTy, .int_])
      = .error (.otnce (.int 5) "<class \x27list\x27>")
    ∧ castToAnyType [] (.int 5) (.tup [.int_]) = .ok (.int 5) := by
  constructor
  · simp [castToAnyType.eq_def, castFirst.eq_def, isInstance, isInstanceCls, isInstanceUnion, hasOrigin, castToSimpleType,
      castToCustomType, doubleUnpacked, singleUnpacked, callType, callList, iterElems,
      callableTy, PyErr.isTypeError, PyErr.isValueError, strOfTy.eq_def]
  · simp [castToAnyType.eq_def, castFirst.eq_def, isInstance, isInstanceCls, isInstanceUnion]

/-- C1 amended: when `declared_type` is a tuple of candidates, only the
first candidate is ever consulted — every branch of the loop body returns
or raises on the first iteration, so the result coincides with coercion
against the one-element tuple of the first candidate, and a first-candidate
failure aborts the whole coercion regardless of later candidates. -/
theorem c1_first_candidate_amended (env : Env) (v : Value) (t : PyTy) (rest : List PyTy)
    (hv : v ≠ Value.none) :
    castToAnyType env v (.tup (t :: rest)) = castToAnyType env v (.tup [t]) := by
  cases v <;> simp_all [castToAnyType.eq_def]

/-- C1 witness: the amended theorem at input `5` with candidates
`(list, int)`. -/
theorem c1_first_candidate_witness :
    castToAnyType [] (.int 5) (.tup [.listTy, .int_])
      = castToAnyType [] (.int 5) (.tup [.listTy]) :=
  c1_first_candidate_amended [] (.int 5) .listTy [.int_] (by simp)

/-- C3 amended: coercing the `None` sentinel against a single declared
type succeeds (returning the sentinel) exactly when the textual rendering
of the type begins with `typing.Optional`, and raises the coercion error
otherwise.  The prefix holds for one-level optionals of non-union member
types — and equally for nested optional declarations, which the `typing`
module collapses to one level — while `Optional` of a union renders as
`typing.Union[...]` and is rejected. -/
theorem c3_sentinel_amended (env : Env) (t : PyTy) :
    castToAnyType env Value.none (.single t)
      = if (strOfTy t).take 15 == "typing.Optional" then .ok Value.none
        else .error (.otnce Value.none (strOfTy t)) := by
  simp [castToAnyType.eq_def, strOfArg]

/-- C3 counterexample: the nested optional declaration
`Optional[Optional[int]]` accepts the sentinel — the `typing` module
collapses it to `Optional[int]`, whose rendering matches the prefix check —
refuting the claim that nested optionals always fail sentinel coercion. -/
theorem c3_sentinel_counterexample :
    castToAnyType [] Value.none (.single (mkOptional (mkOptional .int_)))
      = .ok Value.none := by
  simp [mkOptional, mkUnion, dedupTys.eq_def, tyBeq.eq_def, castToAnyType.eq_def,
    strOfArg, strOfTy.eq_def, innerTyRepr.eq_def]
  decide

/-- C2: evaluating the engine at input `5` with declared type
`Union[list, set]` — both members fail with the coercion error — yields
Python `None` instead of raising: `cast_to_multiple_types` has no trailing
`raise`, so the exhausted loop implicitly returns `None`, contradicting
the specified error propagation. -/
theorem c2_union_exhaustion_code_bug :
    castToAnyType [] (.int 5) (.single (mkUnion [.listTy, .setTy])) = .ok Value.none := by
  simp [castToAnyType.eq_def, castFirst.eq_def, castToComplexType.eq_def,
    castToMultipleTypes.eq_def, castToSimpleType, castToCustomType, doubleUnpacked,
    singleUnpacked, callType, callList, callSet, isInstance, isInstanceCls, isInstanceUnion, hasOrigin, callableTy,
    iterElems, strOfTy.eq_def, mkUnion, dedupTys.eq_def, tyBeq.eq_def,
    PyErr.isTypeError, PyErr.isValueError, PyErr.isOTNCE]

/-- C4: evaluating the engine at mapping input with one entry, key "a" and
value `5`, against declared type `dict[str, int]`: the code coerces the
entry value against the whole `get_args` tuple `(str, int)`, whose first
candidate `str` wins, producing the string "5" — instead of coercing
against the value type `int` only, which would keep the integer `5`.  The
key passes through unchanged. -/
theorem c4_dict_value_coercion_code_bug :
    castToAnyType [] (.dict [(.str "a", .int 5)]) (.single (.dictOf .str_ .int_))
      = .ok (.dict [(.str "a", .str "5")]) := by
  simp [castToAnyType.eq_def, castFirst.eq_def, castToComplexType.eq_def,
    castDictVals.eq_def, castToSimpleType, castToCustomType, doubleUnpacked,
    singleUnpacked, callType, callStr, isInstance, isInstanceCls, isInstanceUnion, hasOrigin, callableTy, iterElems,
    pyStr, pyRepr.eq_def, PyErr.isTypeError, PyErr.isValueError, Except.map]
  decide

/-- C5: boolean coercion — `coerce(1, bool) = True`, `coerce("T", bool) =
True`, `coerce("0", bool) = False`, `coerce("yes", bool) = False`; every
integer input is stringified first and matched like a string, and every
string input yields `True` exactly when its uppercasing is one of the
fixed truthy literals `"1"`, `"TRUE"`, `"T"`. -/
theorem c5_bool_coercion :
    (∀ env : Env, castToAnyType env (.int 1) (.single .bool_) = .ok (.bool true))
    ∧ (∀ env : Env, castToAnyType env (.str "T") (.single .bool_) = .ok (.bool true))
    ∧ (∀ env : Env, castToAnyType env (.str "0") (.single .bool_) = .ok (.bool false))
    ∧ (∀ env : Env, castToAnyType env (.str "yes") (.single .bool_) = .ok (.bool false))
    ∧ (∀ (env : Env) (n : Int),
        castToAnyType env (.int n) (.single .bool_)
          = .ok (.bool (TRUE_BOOLS.contains (pyUpper (toString n)))))
    ∧ (∀ (env : Env) (s : String),
        castToAnyType env (.str s) (.single .bool_)
          = .ok (.bool (TRUE_BOOLS.contains (pyUpper s)))) := by
  refine ⟨?_, ?_, ?_, ?_, ?_, ?_⟩
  · intro env
    simp [castToAnyType.eq_def, castFirst.eq_def, isInstance, isInstanceCls, isInstanceUnion, hasOrigin, castToSimpleType,
      castToBool, pyStr, pyRepr.eq_def]
    decide
  · intro env
    simp [castToAnyType.eq_def, castFirst.eq_def, isInstance, isInstanceCls, isInstanceUnion, hasOrigin, castToSimpleType,
      castToBool, pyStr, pyRepr.eq_def]
    decide
  · intro env
    simp [castToAnyType.eq_def, castFirst.eq_def, isInstance, isInstanceCls, isInstanceUnion, hasOrigin, castToSimpleType,
      castToBool, pyStr, pyRepr.eq_def]
    decide
  · intro env
    simp [castToAnyType.eq_def, castFirst.eq_def, isInstance, isInstanceCls, isInstanceUnion, hasOrigin, castToSimpleType,
      castToBool, pyStr, pyRepr.eq_def]
    decide
  · intro env n
    simp [castToAnyType.eq_def, castFirst.eq_def, isInstance, isInstanceCls, isInstanceUnion, hasOrigin, castToSimpleType,
      castToBool, pyStr, pyRepr.eq_def]
  · intro env s
    simp [castToAnyType.eq_def, castFirst.eq_def, isInstance, isInstanceCls, isInstanceUnion, hasOrigin, castToSimpleType,
      castToBool, pyStr, pyRepr.eq_def]

/-- C10: on a record with at least two fields, boolean index keys pass the
`isinstance(item, int)` test (`bool` subclasses `int`), so indexed read and
write with a boolean key do not raise the unsupported-access error:
`False` resolves to the field at ordinal 0 and `True` to the field at
ordinal 1, for reads and for writes. -/
theorem c10_bool_key_ordinal (cls : RClass) (vals : List Value) (w : Value)
    (h2 : 2 ≤ cls.fieldsD.length)
    (hlen : vals.length = cls.fieldsD.length)
    (hnd : (cls.fieldsD.map RField.name).Nodup) :
    getItem ⟨cls, List.zip (cls.fieldsD.map RField.name) vals⟩ (.bool false)
        = .ok (vals.getD 0 Value.none)
    ∧ getItem ⟨cls, List.zip (cls.fieldsD.map RField.name) vals⟩ (.bool true)
        = .ok (vals.getD 1 Value.none)
    ∧ setItem ⟨cls, List.zip (cls.fieldsD.map RField.name) vals⟩ (.bool false) w
        = .ok ⟨cls, List.zip (cls.fieldsD.map RField.name) (vals.set 0 w)⟩
    ∧ setItem ⟨cls, List.zip (cls.fieldsD.map RField.name) vals⟩ (.bool true) w
        = .ok ⟨cls, List.zip (cls.fieldsD.map RField.name) (vals.set 1 w)⟩ := by
  obtain ⟨f0, f1, fs, hfd⟩ : ∃ a b l, cls.fieldsD = a :: b :: l := by
    match hE : cls.fieldsD with
    | [] => rw [hE] at h2; simp at h2
    | [a] => rw [hE] at h2; simp at h2
    | a :: b :: l => exact ⟨a, b, l, rfl⟩
  obtain ⟨v0, v1, vs, hv⟩ : ∃ a b l, vals = a :: b :: l := by
    match hE : vals with
    | [] => rw [hfd] at hlen; simp at hlen
    | [a] => rw [hfd] at hlen; simp at hlen
    | a :: b :: l => exact ⟨a, b, l, rfl⟩
  have hne : (f0.name == f1.name) = false := by
    rw [hfd] at hnd
    simp [List.nodup_cons] at hnd
    exact beq_eq_false_iff_ne.mpr hnd.1.1
  refine ⟨?_, ?_, ?_, ?_⟩ <;>
    simp [hfd, hv, getItem, setItem, isInstance, isInstanceCls, isInstanceUnion, keyInt, pyIndex, getAttr, lookupStr,
      RInst.setAttr, setAttrVal, hne, List.getD]

/-- C10 witness: the theorem at a concrete two-field record — key `True`
reads the second field. -/
theorem c10_bool_key_ordinal_witness :
    getItem ⟨⟨"P", [⟨"a", .int_⟩, ⟨"b", .str_⟩]⟩, [("a", .int 1), ("b", .str "x")]⟩
        (.bool true)
      = .ok (.str "x") := by
  have h := c10_bool_key_ordinal ⟨"P", [⟨"a", .int_⟩, ⟨"b", .str_⟩]⟩ [.int 1, .str "x"]
    (.int 7) (by decide) (by decide) (by decide)
  simpa using h.2.1

/-- Record class used by the C8 counterexample: one field `m` declared
with the bare `dict` type. -/
def c8OuterCls : RClass := ⟨"Outer", [⟨"m", .dictTy⟩]⟩

/-- Initial value of field `m`: a dict holding a nested dataclass
instance. -/
def c8NestedVal : Value := .dict [(.str "k", .inst "Inner" [("x", .int 1)])]

/-- The instance produced by constructing `Outer` with `c8NestedVal`: the
value already satisfies `isinstance(-, dict)`, so coercion passes it
through. -/
def c8Orig : RInst := ⟨c8OuterCls, [("m", c8NestedVal)]⟩

/-- The field value after `to_dict`: `asdict` recursively unwraps the
nested instance into a plain dict. -/
def c8Unwrapped : Value := .dict [(.str "k", .dict [(.str "x", .int 1)])]

/-- The instance reconstructed from the `to_dict` snapshot: the unwrapped
dict again satisfies `isinstance(-, dict)` and is not rewrapped. -/
def c8Recon : RInst := ⟨c8OuterCls, [("m", c8Unwrapped)]⟩

/-- C8 counterexample: a successfully constructed record whose bare-dict
field holds a nested dataclass instance does not round-trip — `to_dict`
unwraps the nested instance into a plain dict, reconstruction accepts the
dict unchanged, and the reconstructed instance compares unequal to the
original (a dataclass instance is never `==` to a dict). -/
theorem c8_roundtrip_counterexample :
    constructRecord [] c8OuterCls [c8NestedVal] = .ok c8Orig
    ∧ toDict c8Orig = .ok [("m", c8Unwrapped)]
    ∧ constructKw [] c8OuterCls [("m", c8Unwrapped)] = .ok c8Recon
    ∧ pyEqRec c8Recon c8Orig = false := by
  refine ⟨?_, ?_, ?_, ?_⟩
  · simp [constructRecord, c8OuterCls, c8NestedVal, c8Orig, typeCastFields,
      typeCastFieldsGo, getItem, setItem, isInstance, isInstanceCls, isInstanceUnion, getAttr, lookupStr,
      RInst.setAttr, setAttrVal, castToAnyType.eq_def, castFirst.eq_def]
  · simp [toDict, toDictGo, c8Orig, c8OuterCls, c8NestedVal, c8Unwrapped, getAttr,
      lookupStr, asdictValue.eq_def, asdictFields.eq_def, asdictEntries.eq_def, Except.map]
  · simp [constructKw, c8OuterCls, c8Unwrapped, c8Recon, lookupStr, typeCastFields,
      typeCastFieldsGo, getItem, setItem, isInstance, isInstanceCls, isInstanceUnion, getAttr, RInst.setAttr,
      setAttrVal, castToAnyType.eq_def, castFirst.eq_def]
  · simp [pyEqRec, c8Recon, c8Orig, c8OuterCls, c8NestedVal, c8Unwrapped, fieldTuple,
      lookupStr, pyEqList.eq_def, pyEq.eq_def, pyEqEntries.eq_def, pyEqFind.eq_def]

/-- Helper: `asdict` leaves instance-free values unchanged. -/
theorem asdict_instFree : ∀ v : Value, instFree v = true → asdictValue v = v := by
  refine asdictValue.induct
    (fun v => instFree v = true → asdictValue v = v)
    (fun es => instFreeEntries es = true → asdictEntries es = es)
    (fun xs => instFreeList xs = true → asdictList xs = xs)
    (fun _ => True)
    ?_ ?_ ?_ ?_ ?_ ?_ ?_ ?_ ?_ ?_ ?_
  · intro a fs _ h
    simp [instFree.eq_def] at h
  · intro xs ih h
    simp only [instFree.eq_def] at h
    rw [asdictValue.eq_def]
    simp [ih h]
  · intro xs ih h
    simp only [instFree.eq_def] at h
    rw [asdictValue.eq_def]
    simp [ih h]
  · intro es ih h
    simp only [instFree.eq_def] at h
    rw [asdictValue.eq_def]
    simp [ih h]
  · intro v h1 h2 h3 h4 _h
    cases v with
    | inst a fs => exact absurd rfl (h1 a fs)
    | list xs => exact absurd rfl (h2 xs)
    | tuple xs => exact absurd rfl (h3 xs)
    | dict es => exact absurd rfl (h4 es)
    | none => simp [asdictValue.eq_def]
    | bool b => simp [asdictValue.eq_def]
    | int n => simp [asdictValue.eq_def]
    | str s => simp [asdictValue.eq_def]
    | set xs => simp [asdictValue.eq_def]
  · intro _
    simp [asdictList.eq_def]
  · intro x xs ihx ihxs h
    simp only [instFreeList.eq_2, Bool.and_eq_true] at h
    rw [asdictList.eq_def]
    simp [ihx h.1, ihxs h.2]
  · intro _
    simp [asdictEntries.eq_def]
  · intro k v es ihk ihv ihes h
    simp only [instFreeEntries.eq_2, Bool.and_eq_true] at h
    rw [asdictEntries.eq_def]
    simp [ihk h.1.1, ihv h.1.2, ihes h.2]
  · exact trivial
  · intro _ _ _ _ _
    exact trivial

/-- Helper: writing back the value an attribute already holds leaves the
instance dict unchanged. -/
theorem setAttrVal_self : ∀ (attrs : List (String × Value)) (n : String) (v : Value),
    lookupStr attrs n = some v → setAttrVal attrs n v = attrs := by
  intro attrs
  induction attrs with
  | nil => intro n v h; simp [lookupStr] at h
  | cons e rest ih =>
    intro n v h
    by_cases hk : (e.1 == n) = true
    · rw [lookupStr, if_pos hk] at h
      cases h
      cases e
      simp_all [setAttrVal]
    · rw [lookupStr, if_neg (by simpa using hk)] at h
      cases e
      simp_all [setAttrVal, lookupStr, ih _ _ h]

/-- Helper: in the instance dict built by `__init__` (field names zipped
with values), every declared field name looks up to its zipped value. -/
theorem zip_attr_lookup :
    ∀ (fds : List RField) (vals : List Value),
      (fds.map RField.name).Nodup → vals.length = fds.length →
      ∀ fd ∈ fds, ∃ v, lookupStr (List.zip (fds.map RField.name) vals) fd.name = some v
        ∧ (fd, v) ∈ List.zip fds vals := by
  intro fds
  induction fds with
  | nil => intro vals _ _ fd hfd; simp at hfd
  | cons f0 rest ih =>
    intro vals hnd hlen fd hfd
    match vals with
    | [] => simp at hlen
    | v0 :: vs =>
      have hndc : (f0.name :: rest.map RField.name).Nodup := by
        rw [List.map_cons] at hnd; exact hnd
      have hnd1 := List.nodup_cons.mp hndc
      rcases List.mem_cons.mp hfd with hEq | hMem
      · subst hEq
        refine ⟨v0, ?_, ?_⟩
        · simp only [List.map_cons, List.zip_cons_cons, lookupStr, beq_self_eq_true, if_true]
        · simp only [List.zip_cons_cons, List.mem_cons]
          exact Or.inl trivial
      · have hne : (f0.name == fd.name) = false := by
          have h1 : fd.name ∈ rest.map RField.name := List.mem_map_of_mem _ hMem
          exact beq_eq_false_iff_ne.mpr (fun he => hnd1.1 (he ▸ h1))
        have hlen2 : vs.length = rest.length := by simpa using hlen
        obtain ⟨v, hl, hm⟩ := ih vs hnd1.2 hlen2 fd hMem
        refine ⟨v, ?_, ?_⟩
        · simp only [List.map_cons, List.zip_cons_cons, lookupStr, hne, Bool.false_eq_true,
            if_false]
          exact hl
        · simp only [List.zip_cons_cons, List.mem_cons]
          exact Or.inr hm

/-- Helper: rebuilding the keyword-argument attribute list from lookups
into the zipped instance dict reproduces the zipped dict itself. -/
theorem map_lookup_zip :
    ∀ (fds : List RField) (vals : List Value),
      (fds.map RField.name).Nodup → vals.length = fds.length →
      fds.map (fun fd =>
          (fd.name, (lookupStr (List.zip (fds.map RField.name) vals) fd.name).getD Value.none))
        = List.zip (fds.map RField.name) vals := by
  intro fds
  induction fds with
  | nil => intro vals _ _; simp
  | cons f0 rest ih =>
    intro vals hnd hlen
    match vals with
    | [] => simp at hlen
    | v0 :: vs =>
      have hndc : (f0.name :: rest.map RField.name).Nodup := by
        rw [List.map_cons] at hnd; exact hnd
      have hnd1 := List.nodup_cons.mp hndc
      have hlen2 : vs.length = rest.length := by simpa using hlen
      simp only [List.map_cons, List.zip_cons_cons]
      congr 1
      · simp [lookupStr]
      · have hcongr : ∀ fd ∈ rest,
            (fd.name,
              (lookupStr ((f0.name, v0) :: List.zip (rest.map RField.name) vs) fd.name).getD
                Value.none)
            = (fd.name,
              (lookupStr (List.zip (rest.map RField.name) vs) fd.name).getD Value.none) := by
          intro fd hMem
          have h1 : fd.name ∈ rest.map RField.name := List.mem_map_of_mem _ hMem
          have hne : (f0.name == fd.name) = false :=
            beq_eq_false_iff_ne.mpr (fun he => hnd1.1 (he ▸ h1))
          simp [lookupStr, hne]
        rw [List.map_congr_left hcongr, ih vs hnd1.2 hlen2]

/-- Helper: when every listed field looks up to a value that its declared
type coerces to itself, the `type_cast_fields` loop leaves the instance
unchanged. -/
theorem tcfGo_pass (env : Env) (r : RInst) :
    ∀ fds : List RField,
      (∀ fd ∈ fds, ∃ v, lookupStr r.attrs fd.name = some v
        ∧ castToAnyType env v (.single fd.ty) = .ok v) →
      typeCastFieldsGo env r fds = .ok r := by
  intro fds
  induction fds with
  | nil => intro _; rfl
  | cons fd rest ih =>
    intro h
    obtain ⟨v, hl, hc⟩ := h fd (List.mem_cons_self _ _)
    have hset : setAttrVal r.attrs fd.name v = r.attrs := setAttrVal_self _ _ _ hl
    simp [typeCastFieldsGo, getItem, isInstance, isInstanceCls, isInstanceUnion, getAttr, hl, hc, setItem,
      RInst.setAttr, hset]
    exact ih (fun fd2 h2 => h fd2 (List.mem_cons_of_mem _ h2))

/-- Helper: when every listed field looks up to a value that `asdict`
leaves unchanged, the `to_dict` loop returns the looked-up entries. -/
theorem toDictGo_pass (r : RInst) :
    ∀ fds : List RField,
      (∀ fd ∈ fds, ∃ v, lookupStr r.attrs fd.name = some v ∧ asdictValue v = v) →
      toDictGo r fds
        = .ok (fds.map (fun fd => (fd.name, (lookupStr r.attrs fd.name).getD Value.none))) := by
  intro fds
  induction fds with
  | nil => intro _; rfl
  | cons fd rest ih =>
    intro h
    obtain ⟨v, hl, ha⟩ := h fd (List.mem_cons_self _ _)
    simp [toDictGo, getAttr, hl, ha, ih (fun fd2 h2 => h fd2 (List.mem_cons_of_mem _ h2)),
      Except.map]

/-- C8 amended: the `to_dict`-then-reconstruct round trip yields an equal
(indeed identical) instance for every successfully constructed record whose
field values are free of nested dataclass instances and already satisfy the
runtime membership check of their declared types — classes or union
objects, whose members `isinstance` tests on Python ≥ 3.10 — sentinel
values aside: construction passes such values through, `asdict` copies
them unchanged, and keyword reconstruction rebuilds the same instance. -/
theorem c8_roundtrip_amended (env : Env) (cls : RClass) (vals : List Value)
    (hlen : vals.length = cls.fieldsD.length)
    (hnd : (cls.fieldsD.map RField.name).Nodup)
    (hvals : ∀ p ∈ List.zip cls.fieldsD vals,
      p.2 ≠ Value.none ∧ instFree p.2 = true ∧ isInstance p.2 p.1.ty = some true) :
    constructRecord env cls vals = .ok ⟨cls, List.zip (cls.fieldsD.map RField.name) vals⟩
    ∧ toDict ⟨cls, List.zip (cls.fieldsD.map RField.name) vals⟩
        = .ok (List.zip (cls.fieldsD.map RField.name) vals)
    ∧ constructKw env cls (List.zip (cls.fieldsD.map RField.name) vals)
        = .ok ⟨cls, List.zip (cls.fieldsD.map RField.name) vals⟩ := by
  have hlook := zip_attr_lookup cls.fieldsD vals hnd hlen
  have hprem : ∀ fd ∈ cls.fieldsD, ∃ v,
      lookupStr (List.zip (cls.fieldsD.map RField.name) vals) fd.name = some v
      ∧ castToAnyType env v (.single fd.ty) = .ok v := by
    intro fd hfd
    obtain ⟨v, hl, hm⟩ := hlook fd hfd
    obtain ⟨hv, _, hi⟩ := hvals (fd, v) hm
    exact ⟨v, hl, castAny_of_isInstance env v fd.ty hv hi⟩
  have hprem2 : ∀ fd ∈ cls.fieldsD, ∃ v,
      lookupStr (List.zip (cls.fieldsD.map RField.name) vals) fd.name = some v
      ∧ asdictValue v = v := by
    intro fd hfd
    obtain ⟨v, hl, hm⟩ := hlook fd hfd
    obtain ⟨_, hif, _⟩ := hvals (fd, v) hm
    exact ⟨v, hl, asdict_instFree v hif⟩
  refine ⟨?_, ?_, ?_⟩
  · simp only [constructRecord, hlen, beq_self_eq_true, if_true]
    exact tcfGo_pass env ⟨cls, List.zip (cls.fieldsD.map RField.name) vals⟩ cls.fieldsD hprem
  · rw [toDict,
      toDictGo_pass ⟨cls, List.zip (cls.fieldsD.map RField.name) vals⟩ cls.fieldsD hprem2,
      map_lookup_zip cls.fieldsD vals hnd hlen]
  · have hzlen : ((List.zip (cls.fieldsD.map RField.name) vals).length
        == cls.fieldsD.length) = true := by
      simp [List.length_zip, hlen]
    have hall : (cls.fieldsD.all (fun f =>
        (lookupStr (List.zip (cls.fieldsD.map RField.name) vals) f.name).isSome)) = true := by
      rw [List.all_eq_true]
      intro fd hfd
      obtain ⟨v, hl, _⟩ := hprem fd hfd
      simp [hl]
    simp only [constructKw, hzlen, hall, Bool.and_self, if_true]
    rw [map_lookup_zip cls.fieldsD vals hnd hlen]
    exact tcfGo_pass env ⟨cls, List.zip (cls.fieldsD.map RField.name) vals⟩ cls.fieldsD hprem

/-- C8 witness: the amended round trip at a concrete three-field record —
an int field, a str field, and a `Union[str, int]` field holding an int
that satisfies the union membership check. -/
theorem c8_roundtrip_witness :
    constructRecord [] ⟨"P", [⟨"a", .int_⟩, ⟨"b", .str_⟩, ⟨"c", .unionOf [.str_, .int_]⟩]⟩
        [.int 1, .str "x", .int 2]
      = .ok ⟨⟨"P", [⟨"a", .int_⟩, ⟨"b", .str_⟩, ⟨"c", .unionOf [.str_, .int_]⟩]⟩,
          [("a", .int 1), ("b", .str "x"), ("c", .int 2)]⟩
    ∧ toDict ⟨⟨"P", [⟨"a", .int_⟩, ⟨"b", .str_⟩, ⟨"c", .unionOf [.str_, .int_]⟩]⟩,
          [("a", .int 1), ("b", .str "x"), ("c", .int 2)]⟩
      = .ok [("a", .int 1), ("b", .str "x"), ("c", .int 2)]
    ∧ constructKw [] ⟨"P", [⟨"a", .int_⟩, ⟨"b", .str_⟩, ⟨"c", .unionOf [.str_, .int_]⟩]⟩
        [("a", .int 1), ("b", .str "x"), ("c", .int 2)]
      = .ok ⟨⟨"P", [⟨"a", .int_⟩, ⟨"b", .str_⟩, ⟨"c", .unionOf [.str_, .int_]⟩]⟩,
          [("a", .int 1), ("b", .str "x"), ("c", .int 2)]⟩ := by
  have h := c8_roundtrip_amended []
    ⟨"P", [⟨"a", .int_⟩, ⟨"b", .str_⟩, ⟨"c", .unionOf [.str_, .int_]⟩]⟩
    [.int 1, .str "x", .int 2]
    (by decide) (by decide)
    (by
      intro p hp
      simp [List.zip] at hp
      rcases hp with h1 | h1 | h1 <;> subst h1 <;>
        exact ⟨by simp, by simp [instFree.eq_def], rfl⟩)
  simpa using h
